import Mathlib

/-! SortMeRNA reference-index loading layer (`include/load_index.hpp`).

A shallow embedding of the nucleotide table `nt_table`, of the `Index`
structure with the member-initializer list of its constructor, and of the
operations that the header only declares (`References::fix_ambiguous_char`,
`Index::load_stats`, `Index::load`).

Bytes and table entries are natural numbers; a read of `nt_table` at an index
that the 128-entry array does not have is `none`.
-/

set_option autoImplicit false
set_option maxRecDepth 100000

namespace SortMeRNA

/-! ## The nucleotide table -/

/-- The array `const char nt_table[128]`, row by row as in the header. -/
def nt_table : List Nat := [
  4, 4, 4, 4,  4, 4, 4, 4,  4, 4, 4, 4,  4, 4, 4, 4,
  4, 4, 4, 4,  4, 4, 4, 4,  4, 4, 4, 4,  4, 4, 4, 4,
  4, 4, 4, 4,  4, 4, 4, 4,  4, 4, 4, 4,  4, 4, 4, 4,
  4, 4, 4, 4,  4, 4, 4, 4,  4, 4, 4, 4,  4, 4, 4, 4,
  4, 0, 4, 1,  4, 4, 4, 2,  4, 4, 4, 4,  4, 4, 4, 4,
  4, 4, 4, 4,  3, 3, 4, 4,  4, 4, 4, 4,  4, 4, 4, 4,
  4, 0, 4, 1,  4, 4, 4, 2,  4, 4, 4, 4,  4, 4, 4, 4,
  4, 4, 4, 4,  3, 3, 4, 4,  4, 4, 4, 4,  4, 4, 4, 4
]

/-- The expression `nt_table[b]`: the entry at index `b` when the array has
one, `none` when `b` is past its 128 entries. -/
def nt_lookup (b : Nat) : Option Nat := nt_table[b]?

/-- The reference nucleotide code, written from the documented mapping
`{A/a,C/c,G/g,T/t,U/u} = {0,1,2,3,3}`, every other byte being ambiguous (4).
It is compared with `nt_table`, never used to define it. -/
def nucleotide_code_ref (b : Nat) : Nat :=
  if b = 'A'.toNat ∨ b = 'a'.toNat then 0
  else if b = 'C'.toNat ∨ b = 'c'.toNat then 1
  else if b = 'G'.toNat ∨ b = 'g'.toNat then 2
  else if b = 'T'.toNat ∨ b = 't'.toNat ∨ b = 'U'.toNat ∨ b = 'u'.toNat then 3
  else 4

/-- The bytes of a character string. -/
def bytes_of (s : String) : List Nat := s.toList.map Char.toNat

/-- The value the statement `c = nt_table[(int)c]` stores for the byte `b`:
the table entry when `b` indexes the array; a read past the 128 entries is not
determined by the program and is left to the parameter `oob`. -/
def nt_read (oob : Nat → Nat) (b : Nat) : Nat :=
  match nt_lookup b with
  | some c => c
  | none => oob b

/-- The in-place scan of a sequence from position `i` on: position `i` is
overwritten by the code of the byte it holds, then the scan moves to `i + 1`;
it stops at the end of the sequence. `fuel` bounds the number of steps. -/
def fix_from (oob : Nat → Nat) : Nat → Nat → List Nat → List Nat
  | 0, _, seq => seq
  | fuel + 1, i, seq =>
    match seq[i]? with
    | none => seq
    | some b => fix_from oob fuel (i + 1) (seq.set i (nt_read oob b))

/-- Modelled from the spec: the body of `References::fix_ambiguous_char`, which
the header declares and `load_index.cpp` (not among the sources) defines. The
spec has it scan the sequence and substitute in place, byte for byte, with the
sentinel 4 for every byte that is not a nucleotide letter; its scenario B has
"ACGTNacgtn" normalize to the codes 0,1,2,3,4,0,1,2,3,4, so each byte `b` is
replaced by `nt_table[b]`, the one normalization mapping of the header. -/
def fix_ambiguous_char (oob : Nat → Nat) (seq : List Nat) : List Nat :=
  fix_from oob seq.length 0 seq

/-! ## The index catalog -/

/-- Modelled from the spec: the part of `Runopts` (`options.hpp`, not among
the sources) that this header reads: the configured list of (sequence file,
index name) pairs, and the memory ceiling of one index part. -/
structure Runopts where
  indexfiles : List (String × String)
  memory_ceiling : Nat
  deriving DecidableEq, Repr

/-- Modelled from the spec: the partition statistics record
`index_parts_stats` (`indexdb.hpp`, not among the sources), with the three
quantities the header names for it: the index of the first sequence of the
part, the byte size of its sequences, and the number of its sequences. -/
structure index_parts_stats where
  start_part : Nat
  seq_part_size : Nat
  numseq_part : Nat
  deriving DecidableEq, Repr

/-- The data members of `struct Index`, in the order of the header. The entry
types `kmer` and `kmer_origin` of the two tables come from `indexdb.hpp` and
are parameters. A `double` of the `gumbel` pairs that this development reads is
the constant `-1.0`, exactly the rational number `-1`. -/
structure Index (Kmer KmerOrigin : Type) where
  opts : Runopts
  index_num : Nat
  part : Nat
  number_elements : Nat
  _match : Int
  _mismatch : Int
  _gap_open : Int
  _gap_extension : Int
  num_index_parts : List Nat
  index_parts_stats_vec : List (List index_parts_stats)
  full_ref : List Nat
  full_read : List Nat
  lnwin : List Nat
  partialwin : List Nat
  minimal_score : List Nat
  gumbel : List (ℚ × ℚ)
  numbvs : List Nat
  numseq : List Nat
  lookup_tbl : List Kmer
  positions_tbl : List KmerOrigin
  deriving DecidableEq

/-- The state built by the member-initializer list of `Index::Index` together
with the default member initializers of the structure, before the body of the
constructor calls `load_stats`: each vector of the list is built as
`vector(opts.indexfiles.size(), value)`; `index_parts_stats_vec` and the two
tables are not in the list and start empty. -/
def Index.init_list {Kmer KmerOrigin : Type} (opts : Runopts) : Index Kmer KmerOrigin :=
  { opts := opts
    index_num := 0
    part := 0
    number_elements := 0
    _match := 0
    _mismatch := 0
    _gap_open := 0
    _gap_extension := 0
    num_index_parts := List.replicate opts.indexfiles.length 0
    index_parts_stats_vec := []
    full_ref := List.replicate opts.indexfiles.length 0
    full_read := List.replicate opts.indexfiles.length 0
    lnwin := List.replicate opts.indexfiles.length 0
    partialwin := List.replicate opts.indexfiles.length 0
    minimal_score := List.replicate opts.indexfiles.length 0
    gumbel := List.replicate opts.indexfiles.length (-1, -1)
    numbvs := List.replicate opts.indexfiles.length 0
    numseq := List.replicate opts.indexfiles.length 0
    lookup_tbl := []
    positions_tbl := [] }

/-! ## Partition planning (`load_stats`) -/

/-- Modelled from the spec: what `load_stats` reads about one database: its
seed length and, in sequence order, the footprint of each of its sequences. -/
structure db_stats where
  lnwin : Nat
  seq_sizes : List Nat
  deriving DecidableEq, Repr

/-- Modelled from the spec: the partition planning of `Index::load_stats`
(`load_index.cpp`, not among the sources). Parts are accumulated greedily in
sequence order: a sequence joins the current part `cur` unless the part already
holds a sequence and the sequence would take it over the ceiling, in which case
`cur` is closed and the sequence starts a new part. A sequence larger than the
ceiling therefore still gets a part, which it occupies alone. -/
def plan_parts (ceiling : Nat) : List Nat → index_parts_stats → List index_parts_stats
  | [], cur => if cur.numseq_part = 0 then [] else [cur]
  | s :: rest, cur =>
    if cur.numseq_part = 0 ∨ cur.seq_part_size + s ≤ ceiling then
      plan_parts ceiling rest
        { cur with seq_part_size := cur.seq_part_size + s
                   numseq_part := cur.numseq_part + 1 }
    else
      cur :: plan_parts ceiling rest
        { start_part := cur.start_part + cur.numseq_part
          seq_part_size := s
          numseq_part := 1 }

/-- The plan of one database, started from the empty part at sequence 0. -/
def plan_db (ceiling : Nat) (db : db_stats) : List index_parts_stats :=
  plan_parts ceiling db.seq_sizes ⟨0, 0, 0⟩

/-- Modelled from the spec: `Index::load_stats` (`load_index.cpp`, not among
the sources), for the fields that partition planning sets: for every configured
database, in order, the total sequence count (`uint64_t`), the seed length and
its half (`uint32_t`), the number of parts (`uint16_t`) and the statistics of
each part. `stats db` is what is read about database `db`. The significance
calibration (floating point, through an external estimator) is not modelled and
the fields it sets keep their values. -/
def Index.load_stats {Kmer KmerOrigin : Type} (stats : Nat → db_stats)
    (idx : Index Kmer KmerOrigin) : Index Kmer KmerOrigin :=
  let dbs := (List.range idx.opts.indexfiles.length).map stats
  { idx with
    numseq := dbs.map (fun db => db.seq_sizes.length % 2 ^ 64)
    lnwin := dbs.map (fun db => db.lnwin % 2 ^ 32)
    partialwin := dbs.map (fun db => (db.lnwin % 2 ^ 32) / 2)
    num_index_parts :=
      dbs.map (fun db => (plan_db idx.opts.memory_ceiling db).length % 2 ^ 16)
    index_parts_stats_vec := dbs.map (plan_db idx.opts.memory_ceiling) }

/-- The constructor `Index::Index`: the member-initializer list, then the body,
which calls `load_stats`. -/
def Index.ctor {Kmer KmerOrigin : Type} (opts : Runopts) (stats : Nat → db_stats) :
    Index Kmer KmerOrigin :=
  Index.load_stats stats (Index.init_list opts)

/-! ## Loading one index part (`load`) -/

/-- Modelled from the spec: the file of one index part: a header recording the
occupancy `number_elements` of the positions table, then the entries of the
seed-lookup table and of the seed-position table. -/
structure index_part_file (Kmer KmerOrigin : Type) where
  number_elements : Nat
  lookup_entries : List Kmer
  positions_entries : List KmerOrigin
  deriving DecidableEq

/-- Modelled from the spec: `Index::load` (`load_index.cpp`, not among the
sources). `disk idx_num idx_part` is the file of the named part, `none` when it
is missing. The load is fatal (`none`) when the file is missing, when the
database or the part is not one that `load_stats` recorded, or when the file
does not hold the `4^partialwin` lookup entries and the `number_elements`
position entries that the tables are sized for. Otherwise the tables read from
the file are installed as the resident tables, in place of whatever was
resident, and the loaded database (`uint16_t`), part and occupancy are
recorded. -/
def Index.load {Kmer KmerOrigin : Type}
    (disk : Nat → Nat → Option (index_part_file Kmer KmerOrigin))
    (idx : Index Kmer KmerOrigin) (idx_num idx_part : Nat) : Option (Index Kmer KmerOrigin) :=
  match disk idx_num idx_part, idx.num_index_parts[idx_num]?, idx.partialwin[idx_num]? with
  | some file, some nparts, some pw =>
    if idx_part < nparts ∧ 4 ^ pw ≤ file.lookup_entries.length
        ∧ file.number_elements % 2 ^ 32 ≤ file.positions_entries.length then
      some { idx with
        index_num := idx_num % 2 ^ 16
        part := idx_part
        number_elements := file.number_elements % 2 ^ 32
        lookup_tbl := file.lookup_entries.take (4 ^ pw)
        positions_tbl := file.positions_entries.take (file.number_elements % 2 ^ 32) }
    else none
  | _, _, _ => none

/-! ## Example data -/

/-- A disk with the two parts of database 0, each with four lookup entries. -/
def demo_disk : Nat → Nat → Option (index_part_file Nat Nat)
  | 0, 0 => some ⟨2, [10, 11, 12, 13], [20, 21]⟩
  | 0, 1 => some ⟨1, [30, 31, 32, 33], [40]⟩
  | _, _ => none

/-- A catalog built for one database of three unit-size sequences, seed length
2 and a ceiling of two units: two parts, lookup tables of `4^1` entries. -/
def demo_index : Index Nat Nat :=
  Index.ctor ⟨[("ref.fasta", "ref.idx")], 2⟩ (fun _ => ⟨2, [1, 1, 1]⟩)

/-! ## Lemmas about the table -/

theorem nt_lookup_eq_ref (b : Nat) (hb : b < 128) :
    nt_lookup b = some (nucleotide_code_ref b) := by
  interval_cases b <;> rfl

theorem nt_lookup_eq_none (b : Nat) (hb : 128 ≤ b) : nt_lookup b = none := by
  unfold nt_lookup
  exact List.getElem?_eq_none (by simpa [nt_table] using hb)

theorem nucleotide_code_ref_le (b : Nat) : nucleotide_code_ref b ≤ 4 := by
  unfold nucleotide_code_ref
  split_ifs <;> omega

/-! ## Lemmas about the in-place scan -/

theorem fix_from_eq (oob : Nat → Nat) :
    ∀ (fuel i : Nat) (seq : List Nat), fuel + i = seq.length →
      fix_from oob fuel i seq = seq.take i ++ (seq.drop i).map (nt_read oob) := by
  intro fuel
  induction fuel with
  | zero =>
    intro i seq h
    have hi : i = seq.length := by omega
    subst hi
    simp [fix_from]
  | succ fuel ih =>
    intro i seq h
    have hi : i < seq.length := by omega
    have hget : seq[i]? = some seq[i] := List.getElem?_eq_getElem hi
    rw [fix_from, hget]
    simp only
    rw [ih (i + 1) _ (by simp; omega)]
    rw [List.take_succ, List.set_take, List.set_eq_of_length_le (by simp),
      List.drop_set_of_lt _ _ (Nat.lt_succ_self i), List.drop_eq_getElem_cons hi]
    simp only [List.getElem?_set_self hi, Option.toList, List.map_cons, List.append_assoc,
      List.singleton_append]

theorem fix_ambiguous_char_eq_map (oob : Nat → Nat) (seq : List Nat) :
    fix_ambiguous_char oob seq = seq.map (nt_read oob) := by
  unfold fix_ambiguous_char
  rw [fix_from_eq oob seq.length 0 seq (by omega)]
  simp

/-! ## Lemmas about partition planning -/

theorem plan_parts_sum (ceiling : Nat) :
    ∀ (sizes : List Nat) (cur : index_parts_stats),
      ((plan_parts ceiling sizes cur).map index_parts_stats.numseq_part).sum
        = cur.numseq_part + sizes.length := by
  intro sizes
  induction sizes with
  | nil =>
    intro cur
    by_cases h : cur.numseq_part = 0 <;> simp [plan_parts, h]
  | cons s rest ih =>
    intro cur
    unfold plan_parts
    split_ifs with h
    · rw [ih]
      simp only [List.length_cons]
      omega
    · rw [List.map_cons, List.sum_cons, ih]
      simp only [List.length_cons]
      omega

/-! ## Theorems about the table -/

/-- C1: every byte below 128 is mapped by `nt_table` to its reference
nucleotide code (A/a 0, C/c 1, G/g 2, T/t/U/u 3, anything else 4), and the
bytes of "ACGTNacgtn" are mapped to 0,1,2,3,4,0,1,2,3,4. -/
theorem nt_table_matches_reference :
    (∀ b : Nat, b < 128 → nt_lookup b = some (nucleotide_code_ref b)) ∧
    (bytes_of "ACGTNacgtn").map nt_lookup
      = [some 0, some 1, some 2, some 3, some 4,
         some 0, some 1, some 2, some 3, some 4] := by
  exact ⟨nt_lookup_eq_ref, by decide⟩

/-- Witness of C1 at the byte 'G'. -/
theorem nt_table_matches_reference_witness :
    71 < 128 ∧ nt_lookup 71 = some (nucleotide_code_ref 71) :=
  ⟨by decide, nt_table_matches_reference.1 71 (by decide)⟩

/-- C3 as stated fails: the byte 128 has no entry in `nt_table`, so not every
byte value in 0..255 has a defined code. -/
theorem nt_lookup_byte_128_undefined :
    nt_lookup 128 = none ∧
    ¬ (∀ b : Nat, b < 256 → ∃ c : Nat, nt_lookup b = some c ∧ c ≤ 4) := by
  refine ⟨by decide, fun h => ?_⟩
  obtain ⟨c, hc, _⟩ := h 128 (by decide)
  rw [nt_lookup_eq_none 128 (le_refl 128)] at hc
  exact Option.noConfusion hc

/-- C3 (amended): every byte value below 128 has a defined code in
{0,1,2,3,4}; a byte value from 128 on indexes outside the 128-entry table. -/
theorem nt_lookup_defined_iff_ascii :
    (∀ b : Nat, b < 128 → ∃ c : Nat, nt_lookup b = some c ∧ c ≤ 4) ∧
    (∀ b : Nat, 128 ≤ b → nt_lookup b = none) :=
  ⟨fun b hb => ⟨nucleotide_code_ref b, nt_lookup_eq_ref b hb, nucleotide_code_ref_le b⟩,
   nt_lookup_eq_none⟩

/-- Witness of the amended C3 at the bytes 127 and 255. -/
theorem nt_lookup_defined_iff_ascii_witness :
    (127 < 128 ∧ ∃ c : Nat, nt_lookup 127 = some c ∧ c ≤ 4) ∧
    (128 ≤ 255 ∧ nt_lookup 255 = none) :=
  ⟨⟨by decide, nt_lookup_defined_iff_ascii.1 127 (by decide)⟩,
   ⟨by decide, nt_lookup_defined_iff_ascii.2 255 (by decide)⟩⟩

/-- C9: for every byte `b` with `64 ≤ b < 96`, the table has the same entry at
`b` and at `b + 32`: an uppercase letter and its lowercase form get the same
code. -/
theorem nt_table_case_insensitive (b : Nat) (h64 : 64 ≤ b) (h96 : b < 96) :
    ∃ c : Nat, nt_lookup b = some c ∧ nt_lookup (b + 32) = some c := by
  interval_cases b <;> exact ⟨_, rfl, rfl⟩

/-- Witness of C9 at 'U' and 'u'. -/
theorem nt_table_case_insensitive_witness :
    (64 ≤ 85 ∧ 85 < 96) ∧ ∃ c : Nat, nt_lookup 85 = some c ∧ nt_lookup (85 + 32) = some c :=
  ⟨by decide, nt_table_case_insensitive 85 (by decide) (by decide)⟩

/-- C10: for every byte `b` below 128, the code `nt_table[b]` is itself an
index of the table, and its entry is the ambiguous sentinel 4. -/
theorem nt_table_of_code_is_ambiguous (b : Nat) (hb : b < 128) :
    ∃ c : Nat, nt_lookup b = some c ∧ nt_lookup c = some 4 := by
  interval_cases b <;> exact ⟨_, rfl, rfl⟩

/-- Witness of C10 at 'A'. -/
theorem nt_table_of_code_is_ambiguous_witness :
    65 < 128 ∧ ∃ c : Nat, nt_lookup 65 = some c ∧ nt_lookup c = some 4 :=
  ⟨by decide, nt_table_of_code_is_ambiguous 65 (by decide)⟩

/-! ## Theorems about nucleotide normalization -/

/-- C4: normalization preserves the length of every sequence, and position
by position the result holds the code of the byte that was there: no byte is
inserted or deleted. -/
theorem fix_ambiguous_char_length (oob : Nat → Nat) (S : List Nat) :
    (fix_ambiguous_char oob S).length = S.length ∧
    ∀ i : Nat, (fix_ambiguous_char oob S)[i]? = (S[i]?).map (nt_read oob) := by
  rw [fix_ambiguous_char_eq_map]
  exact ⟨List.length_map _ _, fun i => List.getElem?_map _ _ _⟩

/-! ## Theorems about the constructor -/

/-- C5: in the state built by the member-initializer list of the constructor,
the Gumbel pair of every configured database is the sentinel (-1.0, -1.0). -/
theorem init_list_gumbel_sentinel (Kmer KmerOrigin : Type) (opts : Runopts) (i : Nat)
    (hi : i < opts.indexfiles.length) :
    (Index.init_list opts : Index Kmer KmerOrigin).gumbel[i]?
      = some ((-1 : ℚ), (-1 : ℚ)) := by
  simp [Index.init_list, List.getElem?_replicate, hi]

/-- Witness of C5 for the second of two databases. -/
theorem init_list_gumbel_sentinel_witness :
    1 < (Runopts.mk [("a.fasta", "a.idx"), ("b.fasta", "b.idx")] 8).indexfiles.length ∧
    (Index.init_list ⟨[("a.fasta", "a.idx"), ("b.fasta", "b.idx")], 8⟩ : Index Nat Nat).gumbel[1]?
      = some ((-1 : ℚ), (-1 : ℚ)) :=
  ⟨by decide, init_list_gumbel_sentinel Nat Nat ⟨[("a.fasta", "a.idx"), ("b.fasta", "b.idx")], 8⟩ 1
    (by decide)⟩

/-- C8: in the state built by the member-initializer list of the constructor,
each of the nine per-database vectors has one entry per configured index file,
so that every database index below that number is an index into each. -/
theorem init_list_vector_sizes (Kmer KmerOrigin : Type) (opts : Runopts) :
    let idx : Index Kmer KmerOrigin := Index.init_list opts
    let n := opts.indexfiles.length
    (idx.num_index_parts.length = n ∧ idx.full_ref.length = n ∧ idx.full_read.length = n ∧
      idx.lnwin.length = n ∧ idx.partialwin.length = n ∧ idx.minimal_score.length = n ∧
      idx.gumbel.length = n ∧ idx.numbvs.length = n ∧ idx.numseq.length = n) ∧
    ∀ i : Nat, i < n →
      i < idx.num_index_parts.length ∧ i < idx.full_ref.length ∧ i < idx.full_read.length ∧
      i < idx.lnwin.length ∧ i < idx.partialwin.length ∧ i < idx.minimal_score.length ∧
      i < idx.gumbel.length ∧ i < idx.numbvs.length ∧ i < idx.numseq.length := by
  simp [Index.init_list]

/-- Witness of C8 for the second of two databases. -/
theorem init_list_vector_sizes_witness :
    1 < (Runopts.mk [("a.fasta", "a.idx"), ("b.fasta", "b.idx")] 8).indexfiles.length ∧
    1 < (Index.init_list ⟨[("a.fasta", "a.idx"), ("b.fasta", "b.idx")], 8⟩
          : Index Nat Nat).numseq.length :=
  ⟨by decide,
   ((init_list_vector_sizes Nat Nat ⟨[("a.fasta", "a.idx"), ("b.fasta", "b.idx")], 8⟩).2 1
      (by decide)).2.2.2.2.2.2.2.2⟩

/-! ## Theorems about partition planning -/

/-- C6: for every configured database whose sequence count fits `uint64_t`,
the statistics that `load_stats` records for its parts and the total it records
in `numseq` agree: the per-part sequence counts, over the parts counted in
`num_index_parts`, sum to the total, which is the number of sequences of the
database. Three sequences of one size under a
ceiling of twice that size are planned as two parts of 2 and 1 sequences. -/
theorem load_stats_partition_complete :
    (∀ (Kmer KmerOrigin : Type) (opts : Runopts) (stats : Nat → db_stats) (db : Nat),
      db < opts.indexfiles.length → (stats db).seq_sizes.length < 2 ^ 64 →
      ∃ (parts : List index_parts_stats) (N : Nat),
        (Index.ctor opts stats : Index Kmer KmerOrigin).index_parts_stats_vec[db]? = some parts ∧
        (Index.ctor opts stats : Index Kmer KmerOrigin).numseq[db]? = some N ∧
        (Index.ctor opts stats : Index Kmer KmerOrigin).num_index_parts[db]?
          = some (parts.length % 2 ^ 16) ∧
        N = (stats db).seq_sizes.length ∧
        (parts.map index_parts_stats.numseq_part).sum = N) ∧
    (∀ s L : Nat, 0 < s →
      (plan_db (2 * s) ⟨L, [s, s, s]⟩).map index_parts_stats.numseq_part = [2, 1]) := by
  constructor
  · intro Kmer KmerOrigin opts stats db hdb hN
    refine ⟨plan_db opts.memory_ceiling (stats db), (stats db).seq_sizes.length,
      ?_, ?_, ?_, rfl, ?_⟩
    · simp [Index.ctor, Index.load_stats, Index.init_list, List.getElem?_map,
        List.getElem?_range hdb]
    · simp [Index.ctor, Index.load_stats, Index.init_list, List.getElem?_map,
        List.getElem?_range hdb]
      omega
    · simp [Index.ctor, Index.load_stats, Index.init_list, List.getElem?_map,
        List.getElem?_range hdb]
    · simp [plan_db, plan_parts_sum]
  · intro s L hs
    have h3 : ¬ (s + s + s ≤ 2 * s) := by omega
    have h2 : s + s ≤ 2 * s := by omega
    simp [plan_db, plan_parts, h3, h2]

/-- Witness of C6 for the example catalog. -/
theorem load_stats_partition_complete_witness :
    (0 < (Runopts.mk [("ref.fasta", "ref.idx")] 2).indexfiles.length ∧
      [1, 1, 1].length < 2 ^ 64 ∧
      ∃ (parts : List index_parts_stats) (N : Nat),
        (Index.ctor ⟨[("ref.fasta", "ref.idx")], 2⟩ (fun _ => ⟨2, [1, 1, 1]⟩)
            : Index Nat Nat).index_parts_stats_vec[0]? = some parts ∧
        (Index.ctor ⟨[("ref.fasta", "ref.idx")], 2⟩ (fun _ => ⟨2, [1, 1, 1]⟩)
            : Index Nat Nat).numseq[0]? = some N ∧
        (Index.ctor ⟨[("ref.fasta", "ref.idx")], 2⟩ (fun _ => ⟨2, [1, 1, 1]⟩)
            : Index Nat Nat).num_index_parts[0]? = some (parts.length % 2 ^ 16) ∧
        N = [1, 1, 1].length ∧
        (parts.map index_parts_stats.numseq_part).sum = N) ∧
    (0 < 5 ∧ (plan_db (2 * 5) ⟨18, [5, 5, 5]⟩).map index_parts_stats.numseq_part = [2, 1]) :=
  ⟨⟨by decide, by decide,
    load_stats_partition_complete.1 Nat Nat ⟨[("ref.fasta", "ref.idx")], 2⟩
      (fun _ => ⟨2, [1, 1, 1]⟩) 0 (by decide) (by decide)⟩,
   ⟨by decide, load_stats_partition_complete.2 5 18 (by decide)⟩⟩

/-! ## Theorems about loading -/

/-- C7: when part `p` of a database has been loaded, loading part `p + 1` of
it gives the same state (loaded database, part, occupancy and both tables, with
everything else) as loading part `p + 1` without part `p` before it. -/
theorem load_replaces_wholesale (Kmer KmerOrigin : Type)
    (disk : Nat → Nat → Option (index_part_file Kmer KmerOrigin))
    (idx after_p : Index Kmer KmerOrigin) (db p : Nat)
    (hp : Index.load disk idx db p = some after_p) :
    Index.load disk after_p db (p + 1) = Index.load disk idx db (p + 1) := by
  unfold Index.load at hp
  split at hp
  · split_ifs at hp
    cases hp
    simp [Index.load]
  · cases hp

/-- Witness of C7 on the example disk: part 0 loads, and part 1 after it
gives the state of part 1 alone, which holds the tables of part 1. -/
theorem load_replaces_wholesale_witness :
    ∃ after_p : Index Nat Nat,
      Index.load demo_disk demo_index 0 0 = some after_p ∧
      Index.load demo_disk after_p 0 (0 + 1) = Index.load demo_disk demo_index 0 (0 + 1) ∧
      (Index.load demo_disk demo_index 0 (0 + 1)).map
          (fun s => (s.index_num, s.part, s.number_elements, s.lookup_tbl, s.positions_tbl))
        = some (0, 1, 1, [30, 31, 32, 33], [40]) :=
  ⟨_, rfl, load_replaces_wholesale Nat Nat demo_disk demo_index _ 0 0 rfl, by decide⟩

end SortMeRNA
